import Mathlib

/-!
# Verification of the PCR per-user data-key and encrypted-draft subsystem

Shallow embedding of the key-management and draft-persistence code of
`src/app.py` (and the key-wrapping helper of `src/make.py`).

Modelling conventions:
* bytes are `List Nat` (each entry one byte value);
* the Fernet authenticated-encryption scheme is modelled symbolically: an
  encryption token records the key it was produced under and the plaintext,
  and decryption succeeds exactly when the same key is presented (this is
  the contract of an authenticated-encryption scheme; the `.encode("utf-8")`
  / `.decode("utf-8")` conversions between token bytes and the text column
  are bijections and are modelled away);
* the filesystem is an explicit `Env` value (the contents of `secret.key`);
  Python exceptions become an `Except PyExn` result, where `PyExn` keeps the
  exception class and its message text (`str(e)`);
* `os.urandom` results are passed in as explicit parameters.
-/

/-- Byte strings, one `Nat` per byte. -/
abbrev Bytes := List Nat

/-- `bytes.strip()` whitespace set: space, \t, \n, \r, \v, \f. -/
def isSpaceByte (c : Nat) : Bool :=
  c = 32 || c = 9 || c = 10 || c = 13 || c = 11 || c = 12

/-- Python `bytes.strip()`: drop ASCII whitespace from both ends. -/
def stripBytes (bs : Bytes) : Bytes :=
  ((bs.dropWhile isSpaceByte).reverse.dropWhile isSpaceByte).reverse

/-- Value of one url-safe base64 alphabet byte (`urlsafe_b64decode` first
translates `-`/`_` to `+`/`/`, so both alphabets decode). -/
def b64CharVal (c : Nat) : Option Nat :=
  if 65 ≤ c ∧ c ≤ 90 then some (c - 65)
  else if 97 ≤ c ∧ c ≤ 122 then some (c - 97 + 26)
  else if 48 ≤ c ∧ c ≤ 57 then some (c - 48 + 52)
  else if c = 45 ∨ c = 43 then some 62
  else if c = 95 ∨ c = 47 then some 63
  else none

/-- Decode base64 in four-character groups; `=` (byte 61) padding is only
legal at the very end, as `xx==` or `xxx=`. -/
def b64DecodeGroups : List Nat → Option Bytes
  | [] => some []
  | a :: b :: c :: d :: rest =>
    match b64CharVal a, b64CharVal b with
    | some x, some y =>
      if c = 61 ∧ d = 61 ∧ rest = [] then
        some [x * 4 + y / 16]
      else
        match b64CharVal c with
        | some z =>
          if d = 61 ∧ rest = [] then
            some [x * 4 + y / 16, (y % 16) * 16 + z / 4]
          else
            match b64CharVal d with
            | some w =>
              (b64DecodeGroups rest).map
                ([x * 4 + y / 16, (y % 16) * 16 + z / 4, (z % 4) * 64 + w] ++ ·)
            | none => none
        | none => none
    | _, _ => none
  | _ => none

/-- `base64.urlsafe_b64decode` with the default lenient mode: bytes outside
the alphabet (and outside `=`) are discarded before decoding. -/
def urlsafeB64Decode (bs : Bytes) : Option Bytes :=
  b64DecodeGroups (bs.filter (fun c => (b64CharVal c).isSome || c = 61))

/-- The validity check performed by the `Fernet(key)` constructor: the key
must url-safe-base64-decode to exactly 32 bytes. -/
def isValidFernetKey (key : Bytes) : Bool :=
  match urlsafeB64Decode key with
  | some raw => raw.length = 32
  | none => false

/-- Python exception classes raised by the code paths under study, with the
message text `str(e)` they carry. -/
inductive PyExn where
  | fileNotFound (m : String)
  | valueError (m : String)
  | invalidToken (m : String)
deriving DecidableEq, Repr

/-- `str(e)` for a modelled exception. -/
def PyExn.msg : PyExn → String
  | .fileNotFound m => m
  | .valueError m => m
  | .invalidToken m => m

/-- The message of the `FileNotFoundError` raised by `load_app_secret_key`. -/
def secretKeyMissingMsg : String :=
  "App secret key file not found. Create one with:\n>>> from cryptography.fernet import Fernet\n>>> open(\x27secret.key\x27,\x27wb\x27).write(Fernet.generate_key())"

/-- The message of the `ValueError` raised by the `Fernet` constructor on a
malformed key. -/
def fernetKeyInvalidMsg : String :=
  "Fernet key must be 32 url-safe base64-encoded bytes."

/-- Process environment: the contents of the `secret.key` file next to
`app.py`, or `none` when the file is absent. -/
structure Env where
  secretFile : Option Bytes
deriving DecidableEq, Repr

/-- `load_app_secret_key` (app.py:53-69): raises `FileNotFoundError` when the
file is missing, reads and strips the bytes, and validates them by
constructing `Fernet(key)` (raising `ValueError` on a malformed key). The
source re-reads the file on every call; within a process run the file
content (`Env`) is fixed, so the embedding is a pure function of `Env`. -/
def load_app_secret_key (env : Env) : Except PyExn Bytes :=
  match env.secretFile with
  | none => .error (.fileNotFound secretKeyMissingMsg)
  | some bs =>
    let key := stripBytes bs
    if isValidFernetKey key then .ok key
    else .error (.valueError fernetKeyInvalidMsg)

/-- A symbolic Fernet token over raw byte plaintext (used for wrapping the
per-user data key): it records the Fernet key it was produced under and the
plaintext. -/
structure FernetTokenBytes where
  key : Bytes
  msg : Bytes
deriving DecidableEq, Repr

/-- A symbolic Fernet token over text plaintext (used for the draft payload,
whose plaintext is the UTF-8 encoding of a Python string). -/
structure FernetTokenText where
  key : Bytes
  msg : String
deriving DecidableEq, Repr

/-- `Fernet(key).encrypt(msg)` on raw bytes. -/
def fernetEncryptBytes (key : Bytes) (msg : Bytes) : FernetTokenBytes :=
  ⟨key, msg⟩

/-- `Fernet(key).decrypt(token)` on raw bytes: authenticated decryption
returns the plaintext exactly when the token was produced under `key`, and
raises `InvalidToken` (modelled as `none`) otherwise. -/
def fernetDecryptBytes (key : Bytes) (tok : FernetTokenBytes) : Option Bytes :=
  if tok.key = key then some tok.msg else none

/-- `Fernet(key).encrypt(s.encode())` for a string plaintext. -/
def fernetEncryptText (key : Bytes) (msg : String) : FernetTokenText :=
  ⟨key, msg⟩

/-- `Fernet(key).decrypt(token).decode("utf-8")` for a string plaintext. -/
def fernetDecryptText (key : Bytes) (tok : FernetTokenText) : Option String :=
  if tok.key = key then some tok.msg else none

/-- `encrypt_user_encryption_key` (app.py:75-79): wrap the per-user key with
the app Fernet key from `secret.key`. (`encrypt_key_with_secret_key` in
make.py:13-16 is the same operation with the master key passed explicitly.) -/
def encrypt_user_encryption_key (env : Env) (user_key : Bytes) :
    Except PyExn FernetTokenBytes :=
  match load_app_secret_key env with
  | .error e => .error e
  | .ok app_key => .ok (fernetEncryptBytes app_key user_key)

/-- `decrypt_user_encryption_key` (app.py:81-86): `None` stays `None`
(falsy check), otherwise unwrap under the app key; a token produced under a
different key raises `InvalidToken` (whose `str` is empty). -/
def decrypt_user_encryption_key (env : Env) (ek : Option FernetTokenBytes) :
    Except PyExn (Option Bytes) :=
  match ek with
  | none => .ok none
  | some tok =>
    match load_app_secret_key env with
    | .error e => .error e
    | .ok app_key =>
      match fernetDecryptBytes app_key tok with
      | some k => .ok (some k)
      | none => .error (.invalidToken "")

/-- Structured JSON-like form payloads, as a closed algebraic type: maps
with string keys, arrays, strings, integers, booleans and null. -/
inductive Json where
  | null
  | bool (b : Bool)
  | num (n : Int)
  | str (s : String)
  | arr (elems : List Json)
  | obj (fields : List (String × Json))

mutual

/-- Boolean equality on payloads (structural). -/
def Json.beq : Json → Json → Bool
  | .null, .null => true
  | .bool a, .bool b => a == b
  | .num a, .num b => a == b
  | .str a, .str b => a == b
  | .arr a, .arr b => Json.beqElems a b
  | .obj a, .obj b => Json.beqFields a b
  | _, _ => false

/-- Boolean equality on element lists. -/
def Json.beqElems : List Json → List Json → Bool
  | [], [] => true
  | a :: as, b :: bs => Json.beq a b && Json.beqElems as bs
  | _, _ => false

/-- Boolean equality on field lists. -/
def Json.beqFields : List (String × Json) → List (String × Json) → Bool
  | [], [] => true
  | (k, v) :: as, (k2, v2) :: bs =>
    k == k2 && Json.beq v v2 && Json.beqFields as bs
  | _, _ => false

end

mutual

theorem Json.eq_of_beq : ∀ {a b : Json}, Json.beq a b = true → a = b
  | .null, .null, _ => rfl
  | .bool _, .bool _, h => by
    simp only [Json.beq, beq_iff_eq] at h; exact h ▸ rfl
  | .num _, .num _, h => by
    simp only [Json.beq, beq_iff_eq] at h; exact h ▸ rfl
  | .str _, .str _, h => by
    simp only [Json.beq, beq_iff_eq] at h; exact h ▸ rfl
  | .arr a, .arr b, h => by
    simp only [Json.beq] at h
    exact congrArg Json.arr (Json.eqElems_of_beq h)
  | .obj a, .obj b, h => by
    simp only [Json.beq] at h
    exact congrArg Json.obj (Json.eqFields_of_beq h)

theorem Json.eqElems_of_beq :
    ∀ {a b : List Json}, Json.beqElems a b = true → a = b
  | [], [], _ => rfl
  | x :: xs, y :: ys, h => by
    simp only [Json.beqElems, Bool.and_eq_true] at h
    exact congrArg₂ (· :: ·) (Json.eq_of_beq h.1) (Json.eqElems_of_beq h.2)

theorem Json.eqFields_of_beq :
    ∀ {a b : List (String × Json)}, Json.beqFields a b = true → a = b
  | [], [], _ => rfl
  | (k, v) :: xs, (k2, v2) :: ys, h => by
    simp only [Json.beqFields, Bool.and_eq_true, beq_iff_eq] at h
    have hk : k = k2 := h.1.1
    have hv : v = v2 := Json.eq_of_beq h.1.2
    have ht : xs = ys := Json.eqFields_of_beq h.2
    rw [hk, hv, ht]

end

mutual

theorem Json.beq_refl : ∀ (a : Json), Json.beq a a = true
  | .null => rfl
  | .bool b => by cases b <;> rfl
  | .num _ => by simp [Json.beq]
  | .str _ => by simp [Json.beq]
  | .arr a => by simp only [Json.beq]; exact Json.beqElems_refl a
  | .obj a => by simp only [Json.beq]; exact Json.beqFields_refl a

theorem Json.beqElems_refl : ∀ (a : List Json), Json.beqElems a a = true
  | [] => rfl
  | x :: xs => by
    simp only [Json.beqElems, Bool.and_eq_true]
    exact ⟨Json.beq_refl x, Json.beqElems_refl xs⟩

theorem Json.beqFields_refl :
    ∀ (a : List (String × Json)), Json.beqFields a a = true
  | [] => rfl
  | (k, v) :: xs => by
    simp only [Json.beqFields, Bool.and_eq_true]
    exact ⟨⟨by simp, Json.beq_refl v⟩, Json.beqFields_refl xs⟩

end

instance : DecidableEq Json := fun a b =>
  if h : Json.beq a b = true then .isTrue (Json.eq_of_beq h)
  else .isFalse (fun he => h (he ▸ Json.beq_refl a))

mutual

/-- Python `str(data)` on a structured payload: `repr` of dicts and lists,
`None`/`True`/`False` for null and booleans, decimal integers, and
single-quoted strings (string escaping is not needed by any payload the
claims touch and is not modelled). -/
def pyRepr : Json → String
  | .null => "None"
  | .bool true => "True"
  | .bool false => "False"
  | .num n => toString n
  | .str s => "\x27" ++ s ++ "\x27"
  | .arr es => "[" ++ pyReprElems es ++ "]"
  | .obj fs => "\x7b" ++ pyReprFields fs ++ "\x7d"

/-- Comma-separated `str` of list elements. -/
def pyReprElems : List Json → String
  | [] => ""
  | [x] => pyRepr x
  | x :: y :: xs => pyRepr x ++ ", " ++ pyReprElems (y :: xs)

/-- Comma-separated `str` of dict entries, `'key': value`. -/
def pyReprFields : List (String × Json) → String
  | [] => ""
  | [(k, v)] => "\x27" ++ k ++ "\x27: " ++ pyRepr v
  | (k, v) :: f :: fs =>
    "\x27" ++ k ++ "\x27: " ++ pyRepr v ++ ", " ++ pyReprFields (f :: fs)

end

/-- Row of the `user` table (app.py:89-97): the bcrypt password hash is
irrelevant to every claim and kept as an opaque string; `encrypted_key` is
the nullable wrapped per-user data key column. -/
structure UserRec where
  id : Nat
  username : String
  password : String
  encrypted_key : Option FernetTokenBytes
deriving DecidableEq, Repr

/-- Row of the `submissions` table (app.py:113-120); timestamps are natural
numbers supplied by the caller (`datetime.utcnow`). -/
structure SubmissionRec where
  id : Nat
  user_id : Nat
  status : String
  data : Json
  created_at : Nat
  updated_at : Nat
deriving DecidableEq

/-- Row of the `pcr_records` table (app.py:122-130): one encrypted draft per
user (`user_id` carries a UNIQUE constraint); the `encrypted_data` text
column stores the UTF-8 decoding of the Fernet token, a bijection modelled
away. -/
structure PCRRec where
  id : Nat
  user_id : Nat
  encrypted_data : FernetTokenText
deriving DecidableEq, Repr

/-- The database state. -/
structure AppState where
  users : List UserRec
  submissions : List SubmissionRec
  pcr_records : List PCRRec
deriving DecidableEq

/-- SQLAlchemy autoincrement primary key for a fresh `user` row. -/
def nextUserId (l : List UserRec) : Nat :=
  l.foldr (fun r m => max r.id m) 0 + 1

/-- SQLAlchemy autoincrement primary key for a fresh `submissions` row. -/
def nextSubId (l : List SubmissionRec) : Nat :=
  l.foldr (fun r m => max r.id m) 0 + 1

/-- SQLAlchemy autoincrement primary key for a fresh `pcr_records` row. -/
def nextPcrId (l : List PCRRec) : Nat :=
  l.foldr (fun r m => max r.id m) 0 + 1

/-- HTTP responses are a status code and a JSON body. -/
abbrev HttpResp := Nat × Json

/-- A `jsonify({"message": m})` body. -/
def msgBody (m : String) : Json :=
  Json.obj [("message", Json.str m)]

/-- `Submission.query.filter_by(user_id=uid).order_by(updated_at.desc()).first()`
(app.py:282-287): among the user's rows, the one with the greatest
`updated_at` (SQLite leaves the order of ties unspecified; the claims only
apply it to states with at most one row per user, where this is immaterial). -/
def latestByUpdated : List SubmissionRec → Option SubmissionRec
  | [] => none
  | s :: rest =>
    match latestByUpdated rest with
    | none => some s
    | some t => if s.updated_at < t.updated_at then some t else some s

/-- The row read by `get_submission` (app.py:278-290) for a user. -/
def get_submission_row (uid : Nat) (subs : List SubmissionRec) :
    Option SubmissionRec :=
  latestByUpdated (subs.filter (fun s => s.user_id == uid))

/-- `get_submission` (app.py:278-290): latest submission for the user as a
JSON response. -/
def get_submission (uid : Nat) (subs : List SubmissionRec) : HttpResp :=
  match get_submission_row uid subs with
  | none => (200, Json.obj [("data", Json.null)])
  | some sub =>
    (200, Json.obj [("id", Json.num (Int.ofNat sub.id)),
                    ("status", Json.str sub.status),
                    ("data", sub.data)])

/-- The submission upsert shared verbatim (status literal apart) by
`autosync` (app.py:301-308) and `submit_final` (app.py:321-328): update the
first row of the user in place — `filter_by(user_id=uid).first()`, the ORM
update modelled as a map over the primary key — or insert a fresh row. -/
def upsertSubmission (uid : Nat) (stat : String) (payload : Json) (now : Nat)
    (subs : List SubmissionRec) : List SubmissionRec :=
  match subs.find? (fun s => s.user_id == uid) with
  | some s =>
    subs.map (fun t =>
      if t.id == s.id then
        { t with data := payload, status := stat, updated_at := now }
      else t)
  | none => subs ++ [⟨nextSubId subs, uid, stat, payload, now, now⟩]

/-- The id reported in the response of both routes: the id of the row that
was updated, or of the freshly inserted one. -/
def upsertedSubId (uid : Nat) (subs : List SubmissionRec) : Nat :=
  match subs.find? (fun s => s.user_id == uid) with
  | some s => s.id
  | none => nextSubId subs

/-- `autosync` (app.py:292-310): upsert the user's submission row, setting
`status = "draft"` and overwriting `data`; `now` is `datetime.utcnow`. -/
def autosync (uid : Nat) (payload : Json) (now : Nat)
    (subs : List SubmissionRec) : HttpResp × List SubmissionRec :=
  ((200, Json.obj [("ok", Json.bool true),
                   ("id", Json.num (Int.ofNat (upsertedSubId uid subs))),
                   ("status", Json.str "draft")]),
   upsertSubmission uid "draft" payload now subs)

/-- `submit_final` (app.py:312-330): upsert the user's submission row,
setting `status = "final"` and overwriting `data`. -/
def submit_final (uid : Nat) (payload : Json) (now : Nat)
    (subs : List SubmissionRec) : HttpResp × List SubmissionRec :=
  ((200, Json.obj [("ok", Json.bool true),
                   ("id", Json.num (Int.ofNat (upsertedSubId uid subs))),
                   ("status", Json.str "final")]),
   upsertSubmission uid "final" payload now subs)

/-- One request against the submissions API, tagged with the session user,
the JSON body and the request time. -/
inductive SubOp where
  | autosyncOp (uid : Nat) (payload : Json) (now : Nat)
  | submitFinalOp (uid : Nat) (payload : Json) (now : Nat)

/-- State change of one submissions-API request. -/
def applySubOp (subs : List SubmissionRec) : SubOp → List SubmissionRec
  | .autosyncOp uid payload now => (autosync uid payload now subs).2
  | .submitFinalOp uid payload now => (submit_final uid payload now subs).2

/-- Run a sequence of submissions-API requests. -/
def runSubOps (subs : List SubmissionRec) (ops : List SubOp) :
    List SubmissionRec :=
  ops.foldl applySubOp subs

/-- Status of the first submissions row of a user (the row
`filter_by(user_id=uid).first()` reads and the upserts write). -/
def subStatus (uid : Nat) (subs : List SubmissionRec) : Option String :=
  (subs.find? (fun s => s.user_id == uid)).map (fun s => s.status)

/-- The `try:`-block of `submit_draft` (app.py:364-372): resolve (unwrap)
the user's data key — whose result is then NOT used —, build a throwaway
`Fernet(Fernet.generate_key())` (no observable effect, cannot raise), load
the app master key, stringify the payload with `str`, and encrypt it under
the APP key. -/
def draft_encrypt_payload (env : Env) (ek : FernetTokenBytes) (data : Json) :
    Except PyExn FernetTokenText :=
  match decrypt_user_encryption_key env (some ek) with
  | .error e => .error e
  | .ok _user_key =>
    match load_app_secret_key env with
    | .error e => .error e
    | .ok app_key => .ok (fernetEncryptText app_key (pyRepr data))

/-- The upsert of `submit_draft` (app.py:376-382): update the first
`pcr_records` row of the user in place, or insert a fresh one. -/
def upsertPcr (l : List PCRRec) (uid : Nat) (tok : FernetTokenText) :
    List PCRRec :=
  match l.find? (fun r => r.user_id == uid) with
  | some rec =>
    l.map (fun r => if r.id == rec.id then { r with encrypted_data := tok } else r)
  | none => l ++ [⟨nextPcrId l, uid, tok⟩]

/-- `submit_draft` (app.py:351-384): session user `uid`, JSON body `data`.
Returns 500 when the user row is missing or has no wrapped key, 500 with
`"Encryption failed: " + str(e)` when the try-block raises, and otherwise
upserts the encrypted payload and reports success. -/
def submit_draft (env : Env) (uid : Nat) (data : Json) (st : AppState) :
    HttpResp × AppState :=
  match st.users.find? (fun u => u.id == uid) with
  | none => ((500, Json.obj [("error", Json.str "No user encryption key found")]), st)
  | some user =>
    match user.encrypted_key with
    | none => ((500, Json.obj [("error", Json.str "No user encryption key found")]), st)
    | some ek =>
      match draft_encrypt_payload env ek data with
      | .error e =>
        ((500, Json.obj [("error", Json.str ("Encryption failed: " ++ e.msg))]), st)
      | .ok tok =>
        ((200, msgBody "Draft saved successfully!"),
         { st with pcr_records := upsertPcr st.pcr_records uid tok })

/-- The `try:`-block of `get_draft` (app.py:397-401): load the app master
key and decrypt the stored text under it; `InvalidToken` carries an empty
message. -/
def draft_decrypt (env : Env) (tok : FernetTokenText) : Except PyExn String :=
  match load_app_secret_key env with
  | .error e => .error e
  | .ok app_key =>
    match fernetDecryptText app_key tok with
    | some s => .ok s
    | none => .error (.invalidToken "")

/-- `get_draft` (app.py:386-403): 404 when the user has no `pcr_records`
row; otherwise decrypt under the app key, answering 500 with
`"Decryption failed: " + str(e)` on failure and the decrypted STRING in the
`draft` field on success. -/
def get_draft (env : Env) (uid : Nat) (st : AppState) : HttpResp :=
  match st.pcr_records.find? (fun r => r.user_id == uid) with
  | none => (404, msgBody "No draft found")
  | some rec =>
    match draft_decrypt env rec.encrypted_data with
    | .ok s => (200, Json.obj [("draft", Json.str s)])
    | .error e =>
      (500, Json.obj [("error", Json.str ("Decryption failed: " ++ e.msg))])

deriving instance DecidableEq for Except

/-- Python `str.strip()`: drop whitespace from both ends (ASCII whitespace;
no claim exercises the unicode cases). -/
def pyStrip (s : String) : String :=
  ⟨((s.data.dropWhile Char.isWhitespace).reverse.dropWhile
      Char.isWhitespace).reverse⟩

/-- Characters of the password-policy character class
`[A-Za-z\d@$!%*?&]` (ASCII; the claims never exercise non-ASCII digits). -/
def pwSpecialChar (c : Char) : Bool :=
  c = '@' || c = '$' || c = '!' || c = '%' || c = '*' || c = '?' || c = '&'

/-- Membership in the password character class. -/
def pwClassChar (c : Char) : Bool :=
  c.isUpper || c.isLower || c.isDigit || pwSpecialChar c

/-- The password-strength regex of `add_user` (app.py:246):
`re.match(r"^(?=.*[A-Z])(?=.*\d)(?=.*[@$!%*?&])[A-Za-z\d@$!%*?&]{8,}$", p)`.
Python's `$` also matches just before one trailing newline; `.` in the
lookaheads does not cross a newline, so all five conditions apply to the
string with one trailing newline removed. -/
def passwordPatternOk (p : String) : Bool :=
  let cs := p.data
  let core := if cs.getLast? = some '\n' then cs.dropLast else cs
  decide (8 ≤ core.length) && core.all pwClassChar &&
    core.any (fun c => c.isUpper) && core.any (fun c => c.isDigit) &&
    core.any pwSpecialChar

/-- The bcrypt hash stored in the `password` column
(`bcrypt.generate_password_hash`); opaque to every claim, modelled as the
identity tagging. -/
def bcryptHashOf (p : String) : String := p

/-- `User.create_with_key` (app.py:99-111): generate a fresh 32-byte data
key (`os.urandom(32)`, passed in as `fresh_key`), wrap it under the app
master key, and insert the new user row. Raises whatever
`encrypt_user_encryption_key` raises. -/
def create_with_key (env : Env) (username password : String)
    (fresh_key : Bytes) (st : AppState) : Except PyExn AppState :=
  match encrypt_user_encryption_key env fresh_key with
  | .error e => .error e
  | .ok wrapped =>
    .ok { st with users :=
            st.users ++ [⟨nextUserId st.users, username,
                          bcryptHashOf password, some wrapped⟩] }

/-- `add_user` (app.py:233-256): the admin-only provisioning route. `role`
is the session role; `username_raw`/`password` the JSON body fields (absent
fields arrive as `""`); `fresh_key` the `os.urandom(32)` draw consumed if a
user is created. Checks, in source order: role, required fields, password
strength, username uniqueness; then `User.create_with_key` inside
`try/except`. -/
def add_user (env : Env) (role : String) (username_raw password : String)
    (fresh_key : Bytes) (st : AppState) : HttpResp × AppState :=
  if role ≠ "admin" then ((403, msgBody "Unauthorized"), st)
  else
    let username := pyStrip username_raw
    if username = "" ∨ password = "" then
      ((400, msgBody "Username and password are required"), st)
    else if ¬ passwordPatternOk password then
      ((400, msgBody "Password must be at least 8 characters long, contain an uppercase letter, a number, and a special character."), st)
    else
      match st.users.find? (fun u => u.username == username) with
      | some _ => ((400, msgBody "User already exists!"), st)
      | none =>
        match create_with_key env username password fresh_key st with
        | .ok st2 =>
          ((200, msgBody ("User " ++ username ++ " added successfully with encryption key!")), st2)
        | .error e => ((500, msgBody ("Error: " ++ e.msg)), st)

/-- A valid Fernet key for concrete test states: 43 `A` bytes and one `=`,
which url-safe-base64-decodes to 32 zero bytes. -/
def testKeyBytes : Bytes := List.replicate 43 65 ++ [61]

/-- Concrete environment whose `secret.key` holds `testKeyBytes`. -/
def testEnv : Env := ⟨some testKeyBytes⟩

/-- A concrete 32-byte per-user data key. -/
def testUserKey : Bytes := List.replicate 32 7

/-- A provisioned user: wrapped data key produced under the app key. -/
def testUser : UserRec :=
  ⟨1, "alice", "pw", some (fernetEncryptBytes testKeyBytes testUserKey)⟩

/-- Concrete database with one provisioned user and no drafts. -/
def testState : AppState := ⟨[testUser], [], []⟩

/-- `find?` through a `map` that does not change the predicate's verdict. -/
theorem find?_map_pres {α : Type} (p : α → Bool) (f : α → α)
    (hpf : ∀ x, p (f x) = p x) (l : List α) :
    (l.map f).find? p = (l.find? p).map f := by
  rw [List.find?_map]
  have hc : (p ∘ f) = p := funext hpf
  rw [hc]

/-- `countP` through a `map` that does not change the predicate's verdict. -/
theorem countP_map_pres {α : Type} (p : α → Bool) (f : α → α)
    (hpf : ∀ x, p (f x) = p x) (l : List α) :
    (l.map f).countP p = l.countP p := by
  rw [List.countP_map]
  have hc : (p ∘ f) = p := funext hpf
  rw [hc]

/-- `find?` over an insertion at the tail when nothing matched before. -/
theorem find?_append_none {α : Type} {p : α → Bool} {l : List α} (x : α)
    (h : l.find? p = none) (hx : p x = true) : (l ++ [x]).find? p = some x := by
  rw [List.find?_append, h]
  simp [List.find?, hx]

/-- After the upsert of `submit_draft`, the row `get_draft` will read holds
the freshly stored ciphertext. -/
theorem upsertPcr_find? (l : List PCRRec) (uid : Nat) (tok : FernetTokenText) :
    ∃ r, (upsertPcr l uid tok).find? (fun x => x.user_id == uid) = some r ∧
      r.user_id = uid ∧ r.encrypted_data = tok := by
  unfold upsertPcr
  cases h : l.find? (fun x => x.user_id == uid) with
  | none =>
    refine ⟨⟨nextPcrId l, uid, tok⟩, ?_, rfl, rfl⟩
    simp only [h]
    exact find?_append_none _ h (by simp)
  | some rec =>
    refine ⟨{ rec with encrypted_data := tok }, ?_, ?_, rfl⟩
    · simp only [h]
      rw [find?_map_pres _ _ (fun x => by
        by_cases hx : x.id == rec.id <;> simp [hx]) l, h]
      simp
    · have hp := List.find?_some h
      simpa using hp

/-- The upsert of `submit_draft` leaves exactly one `pcr_records` row for
the user whenever the UNIQUE constraint held before (at most one row). -/
theorem upsertPcr_countP (l : List PCRRec) (uid : Nat) (tok : FernetTokenText)
    (hle : l.countP (fun x => x.user_id == uid) ≤ 1) :
    (upsertPcr l uid tok).countP (fun x => x.user_id == uid) = 1 := by
  unfold upsertPcr
  cases h : l.find? (fun x => x.user_id == uid) with
  | none =>
    have h0 : l.countP (fun x => x.user_id == uid) = 0 :=
      List.countP_eq_zero.mpr (fun a ha => (List.find?_eq_none.mp h) a ha)
    simp only [h]
    rw [List.countP_append, h0]
    simp [List.countP, List.countP.go]
  | some rec =>
    simp only [h]
    rw [countP_map_pres _ _ (fun x => by
      by_cases hx : x.id == rec.id <;> simp [hx]) l]
    have hp := @List.find?_some _ (fun x => x.user_id == uid) rec l h
    have h1 : 0 < l.countP (fun x => x.user_id == uid) :=
      List.countP_pos_iff.mpr ⟨rec, List.mem_of_find?_eq_some h, hp⟩
    omega

/-- The upsert never changes rows of other users' `user_id` count. -/
theorem upsertPcr_countP_other (l : List PCRRec) (uid : Nat)
    (tok : FernetTokenText) (uid2 : Nat) (hne : uid2 ≠ uid) :
    (upsertPcr l uid tok).countP (fun x => x.user_id == uid2) =
      l.countP (fun x => x.user_id == uid2) := by
  unfold upsertPcr
  cases h : l.find? (fun x => x.user_id == uid) with
  | none =>
    have hb : (uid == uid2) = false := by
      simp only [beq_eq_false_iff_ne]
      exact fun hEq => hne hEq.symm
    simp only [h]
    rw [List.countP_append]
    simp [List.countP, List.countP.go, hb]
  | some rec =>
    simp only [h]
    exact countP_map_pres _ _ (fun x => by
      by_cases hx : x.id == rec.id <;> simp [hx]) l

/-- Successful run of `submit_draft`: for a user provisioned with a data key
wrapped under the currently loadable app master key, the route succeeds and
upserts `Fernet(app_key).encrypt(str(data))` — the payload ciphertext is
produced under the APP key, the unwrapped per-user key being dropped. -/
theorem submit_draft_ok (env : Env) (st : AppState) (uid : Nat) (data : Json)
    (ak ukm : Bytes) (user : UserRec)
    (hu : st.users.find? (fun u => u.id == uid) = some user)
    (hek : user.encrypted_key = some (fernetEncryptBytes ak ukm))
    (hload : load_app_secret_key env = .ok ak) :
    submit_draft env uid data st =
      ((200, msgBody "Draft saved successfully!"),
       { st with pcr_records :=
           upsertPcr st.pcr_records uid (fernetEncryptText ak (pyRepr data)) }) := by
  simp [submit_draft, hu, hek, draft_encrypt_payload,
    decrypt_user_encryption_key, hload, fernetDecryptBytes, fernetEncryptBytes]

/-- `get_draft` on a state whose stored row for the user carries a payload
ciphertext produced under the loadable app master key returns 200 with the
decrypted string. -/
theorem get_draft_of_stored (env : Env) (uid : Nat) (st : AppState)
    (ak : Bytes) (r : PCRRec) (s : String)
    (hload : load_app_secret_key env = .ok ak)
    (hfind : st.pcr_records.find? (fun x => x.user_id == uid) = some r)
    (henc : r.encrypted_data = fernetEncryptText ak s) :
    get_draft env uid st = (200, Json.obj [("draft", Json.str s)]) := by
  simp [get_draft, hfind, draft_decrypt, hload, henc, fernetDecryptText,
    fernetEncryptText]

/-- C1 (counterexample): the claim says `submit_draft` encrypts the payload
under the user's resolved per-user data key and that this key decrypts the
stored record. Concretely: user 1's resolved data key is `testUserKey`, but
the stored ciphertext is produced under the app master key `testKeyBytes`;
the resolved per-user key FAILS to decrypt the stored draft, while the app
master key succeeds. -/
theorem C1_claim_counterexample :
    decrypt_user_encryption_key testEnv
        (some (fernetEncryptBytes testKeyBytes testUserKey)) =
      .ok (some testUserKey) ∧
    ((submit_draft testEnv 1 (Json.obj []) testState).2.pcr_records.find?
        (fun r => r.user_id == 1)).map (fun r => r.encrypted_data) =
      some (fernetEncryptText testKeyBytes "\x7b\x7d") ∧
    fernetDecryptText testUserKey
        (fernetEncryptText testKeyBytes "\x7b\x7d") = none ∧
    fernetDecryptText testKeyBytes
        (fernetEncryptText testKeyBytes "\x7b\x7d") = some "\x7b\x7d" := by
  decide

/-- C1 (amended): for every user provisioned with a wrapped data key (under
the loadable app master key `ak`), `submit_draft` encrypts the payload under
the APP MASTER KEY — the resolved per-user key is discarded — and that
master key is the only key that decrypts the stored `pcr_records` row, which
is what `get_draft` uses on load. -/
theorem C1_amended_master_key_encrypts (env : Env) (st : AppState) (uid : Nat)
    (data : Json) (ak ukm : Bytes) (user : UserRec)
    (hu : st.users.find? (fun u => u.id == uid) = some user)
    (hek : user.encrypted_key = some (fernetEncryptBytes ak ukm))
    (hload : load_app_secret_key env = .ok ak) :
    (submit_draft env uid data st).1 =
      (200, msgBody "Draft saved successfully!") ∧
    ∃ r, (submit_draft env uid data st).2.pcr_records.find?
          (fun x => x.user_id == uid) = some r ∧
      r.encrypted_data = fernetEncryptText ak (pyRepr data) ∧
      (∀ k2 : Bytes, (fernetDecryptText k2 r.encrypted_data).isSome = true ↔
        k2 = ak) ∧
      get_draft env uid (submit_draft env uid data st).2 =
        (200, Json.obj [("draft", Json.str (pyRepr data))]) := by
  have hsd := submit_draft_ok env st uid data ak ukm user hu hek hload
  rw [hsd]
  refine ⟨rfl, ?_⟩
  obtain ⟨r, hfind, hruid, hrdata⟩ :=
    upsertPcr_find? st.pcr_records uid (fernetEncryptText ak (pyRepr data))
  refine ⟨r, hfind, hrdata, ?_, ?_⟩
  · intro k2
    rw [hrdata]
    by_cases hk : k2 = ak
    · subst hk
      simp [fernetDecryptText, fernetEncryptText]
    · have hne : ak ≠ k2 := fun h => hk h.symm
      simp [fernetDecryptText, fernetEncryptText, hne, hk]
  · exact get_draft_of_stored env uid _ ak r (pyRepr data) hload hfind hrdata

/-- Witness for C1 (amended) at the concrete provisioned user 1. -/
theorem C1_amended_witness :
    (testState.users.find? (fun u => u.id == 1) = some testUser ∧
      testUser.encrypted_key =
        some (fernetEncryptBytes testKeyBytes testUserKey) ∧
      load_app_secret_key testEnv = .ok testKeyBytes) ∧
    ((submit_draft testEnv 1 (Json.obj []) testState).1 =
      (200, msgBody "Draft saved successfully!") ∧
    ∃ r, (submit_draft testEnv 1 (Json.obj []) testState).2.pcr_records.find?
          (fun x => x.user_id == 1) = some r ∧
      r.encrypted_data = fernetEncryptText testKeyBytes (pyRepr (Json.obj [])) ∧
      (∀ k2 : Bytes, (fernetDecryptText k2 r.encrypted_data).isSome = true ↔
        k2 = testKeyBytes) ∧
      get_draft testEnv 1 (submit_draft testEnv 1 (Json.obj []) testState).2 =
        (200, Json.obj [("draft", Json.str (pyRepr (Json.obj [])))])) :=
  ⟨⟨by decide, by decide, by decide⟩,
   C1_amended_master_key_encrypts testEnv testState 1 (Json.obj [])
     testKeyBytes testUserKey testUser (by decide) (by decide) (by decide)⟩

/-- C2 (counterexample): saving the structured payload
`{"patientName": "Jane"}` and reading it back via `get_draft` yields the
Python-serialized STRING, not the structured payload: the code stringifies
with `str()` before encrypting and never parses on read. -/
theorem C2_roundtrip_counterexample :
    get_draft testEnv 1
        (submit_draft testEnv 1
          (Json.obj [("patientName", Json.str "Jane")]) testState).2 =
      (200, Json.obj [("draft",
        Json.str "\x7b\x27patientName\x27: \x27Jane\x27\x7d")]) ∧
    Json.str "\x7b\x27patientName\x27: \x27Jane\x27\x7d" ≠
      Json.obj [("patientName", Json.str "Jane")] := by
  decide

/-- C2 (amended): the Fernet round-trip holds at the byte/string level —
for every key, decrypting the encryption of any plaintext returns that
plaintext — and consequently a payload `p` saved via `submit_draft` is read
back via `get_draft` as its SERIALIZED form `str(p)` (`pyRepr p`), not as
the structured payload itself. -/
theorem C2_amended_serialized_roundtrip (env : Env) (st : AppState)
    (uid : Nat) (p : Json) (ak ukm : Bytes) (user : UserRec)
    (hu : st.users.find? (fun u => u.id == uid) = some user)
    (hek : user.encrypted_key = some (fernetEncryptBytes ak ukm))
    (hload : load_app_secret_key env = .ok ak) :
    (∀ (k : Bytes) (s : String),
      fernetDecryptText k (fernetEncryptText k s) = some s) ∧
    (∀ (k m : Bytes),
      fernetDecryptBytes k (fernetEncryptBytes k m) = some m) ∧
    get_draft env uid (submit_draft env uid p st).2 =
      (200, Json.obj [("draft", Json.str (pyRepr p))]) := by
  refine ⟨fun k s => by simp [fernetDecryptText, fernetEncryptText],
          fun k m => by simp [fernetDecryptBytes, fernetEncryptBytes], ?_⟩
  have hsd := submit_draft_ok env st uid p ak ukm user hu hek hload
  rw [hsd]
  obtain ⟨r, hfind, hruid, hrdata⟩ :=
    upsertPcr_find? st.pcr_records uid (fernetEncryptText ak (pyRepr p))
  exact get_draft_of_stored env uid _ ak r (pyRepr p) hload hfind hrdata

/-- Witness for C2 (amended) at the concrete provisioned user 1. -/
theorem C2_amended_witness :
    (testState.users.find? (fun u => u.id == 1) = some testUser ∧
      testUser.encrypted_key =
        some (fernetEncryptBytes testKeyBytes testUserKey) ∧
      load_app_secret_key testEnv = .ok testKeyBytes) ∧
    ((∀ (k : Bytes) (s : String),
      fernetDecryptText k (fernetEncryptText k s) = some s) ∧
    (∀ (k m : Bytes),
      fernetDecryptBytes k (fernetEncryptBytes k m) = some m) ∧
    get_draft testEnv 1
        (submit_draft testEnv 1 (Json.str "note") testState).2 =
      (200, Json.obj [("draft", Json.str (pyRepr (Json.str "note")))])) :=
  ⟨⟨by decide, by decide, by decide⟩,
   C2_amended_serialized_roundtrip testEnv testState 1 (Json.str "note")
     testKeyBytes testUserKey testUser (by decide) (by decide) (by decide)⟩

/-- C3 (counterexample): after `save(1, p1); save(1, p2)` with
`p1 = {"a": 1}` and `p2 = {"b": 2}` exactly one row exists — but the load
returns the serialized string `str(p2)`, which is not the payload `p2`. -/
theorem C3_claim_counterexample :
    (submit_draft testEnv 1 (Json.obj [("b", Json.num 2)])
        (submit_draft testEnv 1 (Json.obj [("a", Json.num 1)])
          testState).2).2.pcr_records.countP (fun r => r.user_id == 1) = 1 ∧
    get_draft testEnv 1
        (submit_draft testEnv 1 (Json.obj [("b", Json.num 2)])
          (submit_draft testEnv 1 (Json.obj [("a", Json.num 1)])
            testState).2).2 =
      (200, Json.obj [("draft", Json.str "\x7b\x27b\x27: 2\x7d")]) ∧
    Json.str "\x7b\x27b\x27: 2\x7d" ≠ Json.obj [("b", Json.num 2)] := by
  decide

/-- C3 (amended): two sequential saves for the same user leave EXACTLY ONE
`pcr_records` row for that user (the second save overwrites the first in
place), and the load returns the SERIALIZED form `str(p2)` of the second
payload (not the structured `p2`). Requires the user to be provisioned under
the loadable master key and the table to satisfy its UNIQUE constraint (at
most one row per user) beforehand. -/
theorem C3_amended_upsert (env : Env) (st : AppState) (uid : Nat)
    (p1 p2 : Json) (ak ukm : Bytes) (user : UserRec)
    (hu : st.users.find? (fun u => u.id == uid) = some user)
    (hek : user.encrypted_key = some (fernetEncryptBytes ak ukm))
    (hload : load_app_secret_key env = .ok ak)
    (hpcr : st.pcr_records.countP (fun r => r.user_id == uid) ≤ 1) :
    (submit_draft env uid p2
        (submit_draft env uid p1 st).2).2.pcr_records.countP
      (fun r => r.user_id == uid) = 1 ∧
    get_draft env uid (submit_draft env uid p2
        (submit_draft env uid p1 st).2).2 =
      (200, Json.obj [("draft", Json.str (pyRepr p2))]) := by
  have hsd1 := submit_draft_ok env st uid p1 ak ukm user hu hek hload
  have hu1 : (submit_draft env uid p1 st).2.users.find?
      (fun u => u.id == uid) = some user := by
    rw [hsd1]
    exact hu
  have hsd2 := submit_draft_ok env (submit_draft env uid p1 st).2 uid p2
    ak ukm user hu1 hek hload
  rw [hsd2, hsd1]
  constructor
  · exact upsertPcr_countP _ uid _
      (le_of_eq (upsertPcr_countP _ uid _ hpcr))
  · obtain ⟨r, hfind, hruid, hrdata⟩ :=
      upsertPcr_find?
        (upsertPcr st.pcr_records uid (fernetEncryptText ak (pyRepr p1)))
        uid (fernetEncryptText ak (pyRepr p2))
    exact get_draft_of_stored env uid _ ak r (pyRepr p2) hload hfind hrdata

/-- Witness for C3 (amended), two saves for the concrete user 1. -/
theorem C3_amended_witness :
    (testState.users.find? (fun u => u.id == 1) = some testUser ∧
      testUser.encrypted_key =
        some (fernetEncryptBytes testKeyBytes testUserKey) ∧
      load_app_secret_key testEnv = .ok testKeyBytes ∧
      testState.pcr_records.countP (fun r => r.user_id == 1) ≤ 1) ∧
    ((submit_draft testEnv 1 (Json.num 2)
        (submit_draft testEnv 1 (Json.num 1) testState).2).2.pcr_records.countP
      (fun r => r.user_id == 1) = 1 ∧
    get_draft testEnv 1 (submit_draft testEnv 1 (Json.num 2)
        (submit_draft testEnv 1 (Json.num 1) testState).2).2 =
      (200, Json.obj [("draft", Json.str (pyRepr (Json.num 2)))])) :=
  ⟨⟨by decide, by decide, by decide, by decide⟩,
   C3_amended_upsert testEnv testState 1 (Json.num 1) (Json.num 2)
     testKeyBytes testUserKey testUser (by decide) (by decide) (by decide)
     (by decide)⟩

/-- C7 (counterexample): saving the empty payload and loading returns 200
with the two-character STRING `"{}"` in the `draft` field — not the empty
map itself (the claim's `{}`), though indeed neither null nor `NotFound`
nor an error. -/
theorem C7_claim_counterexample :
    get_draft testEnv 1 (submit_draft testEnv 1 (Json.obj []) testState).2 =
      (200, Json.obj [("draft", Json.str "\x7b\x7d")]) ∧
    Json.str "\x7b\x7d" ≠ Json.obj [] ∧
    Json.str "\x7b\x7d" ≠ Json.null := by
  decide

/-- C7 (amended): for every provisioned user, saving the empty payload `{}`
succeeds and the subsequent load returns 200 with the serialization `"{}"`
of the empty map in the `draft` field — not null, not 404/NotFound, and not
an error. -/
theorem C7_amended_empty_payload (env : Env) (st : AppState) (uid : Nat)
    (ak ukm : Bytes) (user : UserRec)
    (hu : st.users.find? (fun u => u.id == uid) = some user)
    (hek : user.encrypted_key = some (fernetEncryptBytes ak ukm))
    (hload : load_app_secret_key env = .ok ak) :
    (submit_draft env uid (Json.obj []) st).1 =
      (200, msgBody "Draft saved successfully!") ∧
    get_draft env uid (submit_draft env uid (Json.obj []) st).2 =
      (200, Json.obj [("draft", Json.str "\x7b\x7d")]) := by
  have hpr : pyRepr (Json.obj []) = "\x7b\x7d" := by decide
  have hsd := submit_draft_ok env st uid (Json.obj []) ak ukm user hu hek hload
  rw [hsd]
  refine ⟨rfl, ?_⟩
  obtain ⟨r, hfind, hruid, hrdata⟩ :=
    upsertPcr_find? st.pcr_records uid
      (fernetEncryptText ak (pyRepr (Json.obj [])))
  rw [← hpr]
  exact get_draft_of_stored env uid _ ak r (pyRepr (Json.obj []))
    hload hfind hrdata

/-- Witness for C7 (amended) at the concrete provisioned user 1. -/
theorem C7_amended_witness :
    (testState.users.find? (fun u => u.id == 1) = some testUser ∧
      testUser.encrypted_key =
        some (fernetEncryptBytes testKeyBytes testUserKey) ∧
      load_app_secret_key testEnv = .ok testKeyBytes) ∧
    ((submit_draft testEnv 1 (Json.obj []) testState).1 =
      (200, msgBody "Draft saved successfully!") ∧
    get_draft testEnv 1 (submit_draft testEnv 1 (Json.obj []) testState).2 =
      (200, Json.obj [("draft", Json.str "\x7b\x7d")])) :=
  ⟨⟨by decide, by decide, by decide⟩,
   C7_amended_empty_payload testEnv testState 1 testKeyBytes testUserKey
     testUser (by decide) (by decide) (by decide)⟩

/-- C4 (confirmed): a second provisioning attempt (`add_user` by an admin,
with present fields and a policy-passing password) for an already-existing
username fails with the 400 conflict `"User already exists!"` and returns
the database state UNCHANGED — in particular every user's wrapped data key
(and every stored encrypted draft) is exactly as before, so prior drafts
stay decryptable. -/
theorem C4_provision_once (env : Env) (st : AppState)
    (username_raw password : String) (fresh_key : Bytes) (u : UserRec)
    (hfound : st.users.find?
      (fun x => x.username == pyStrip username_raw) = some u)
    (hpw : passwordPatternOk password = true)
    (hne : pyStrip username_raw ≠ "") (hpwne : password ≠ "") :
    add_user env "admin" username_raw password fresh_key st =
      ((400, msgBody "User already exists!"), st) := by
  simp [add_user, hfound, hpw, hne, hpwne]

/-- Witness for C4: re-provisioning the already-provisioned `alice`. -/
theorem C4_provision_once_witness :
    (testState.users.find? (fun x => x.username == pyStrip "alice") =
        some testUser ∧
      passwordPatternOk "Password1!" = true ∧
      pyStrip "alice" ≠ "" ∧ ("Password1!" : String) ≠ "") ∧
    add_user testEnv "admin" "alice" "Password1!" (List.replicate 32 9)
        testState =
      ((400, msgBody "User already exists!"), testState) :=
  ⟨⟨by decide, by decide, by decide, by decide⟩,
   C4_provision_once testEnv testState "alice" "Password1!"
     (List.replicate 32 9) testUser (by decide) (by decide) (by decide)
     (by decide)⟩

/-- C5 (confirmed): for any 32-byte raw data key, unwrapping the wrapped
blob under the same (loadable) master key returns the key exactly:
`decrypt_user_encryption_key (encrypt_user_encryption_key k) = k`. -/
theorem C5_wrap_unwrap_roundtrip (env : Env) (ak k : Bytes)
    (hload : load_app_secret_key env = .ok ak) (hk : k.length = 32) :
    encrypt_user_encryption_key env k = .ok (fernetEncryptBytes ak k) ∧
    decrypt_user_encryption_key env (some (fernetEncryptBytes ak k)) =
      .ok (some k) := by
  constructor
  · simp [encrypt_user_encryption_key, hload]
  · simp [decrypt_user_encryption_key, hload, fernetDecryptBytes,
      fernetEncryptBytes]

/-- Witness for C5 at a concrete 32-byte key under the test master key. -/
theorem C5_wrap_unwrap_roundtrip_witness :
    (load_app_secret_key testEnv = .ok testKeyBytes ∧
      (List.replicate 32 0 : Bytes).length = 32) ∧
    (encrypt_user_encryption_key testEnv (List.replicate 32 0) =
      .ok (fernetEncryptBytes testKeyBytes (List.replicate 32 0)) ∧
    decrypt_user_encryption_key testEnv
        (some (fernetEncryptBytes testKeyBytes (List.replicate 32 0))) =
      .ok (some (List.replicate 32 0))) :=
  ⟨⟨by decide, by decide⟩,
   C5_wrap_unwrap_roundtrip testEnv testKeyBytes (List.replicate 32 0)
     (by decide) (by decide)⟩

/-- C6 (confirmed): `load_app_secret_key` fails with a `FileNotFoundError`
(KeyNotFound-style) when `secret.key` is absent, with a `ValueError`
(KeyInvalid-style) when the stripped bytes are not a well-formed Fernet key,
and otherwise returns the stripped file bytes. The embedding is a pure
function of the environment — the code's only effect is the read — so every
call within a process run (fixed file content) returns this same key
material. -/
theorem C6_master_key_load (env : Env) :
    (env.secretFile = none →
      load_app_secret_key env = .error (.fileNotFound secretKeyMissingMsg)) ∧
    (∀ bs, env.secretFile = some bs →
      isValidFernetKey (stripBytes bs) = false →
      load_app_secret_key env = .error (.valueError fernetKeyInvalidMsg)) ∧
    (∀ bs, env.secretFile = some bs →
      isValidFernetKey (stripBytes bs) = true →
      load_app_secret_key env = .ok (stripBytes bs)) := by
  refine ⟨?_, ?_, ?_⟩
  · intro h
    simp [load_app_secret_key, h]
  · intro bs h hv
    simp [load_app_secret_key, h, hv]
  · intro bs h hv
    simp [load_app_secret_key, h, hv]

/-- Witness for C6: the three cases at concrete environments (absent file,
the malformed key `b"abc"`, and the valid test key). -/
theorem C6_master_key_load_witness :
    ((Env.mk none).secretFile = none ∧
      load_app_secret_key (Env.mk none) =
        .error (.fileNotFound secretKeyMissingMsg)) ∧
    ((Env.mk (some [97, 98, 99])).secretFile = some [97, 98, 99] ∧
      isValidFernetKey (stripBytes [97, 98, 99]) = false ∧
      load_app_secret_key (Env.mk (some [97, 98, 99])) =
        .error (.valueError fernetKeyInvalidMsg)) ∧
    (testEnv.secretFile = some testKeyBytes ∧
      isValidFernetKey (stripBytes testKeyBytes) = true ∧
      load_app_secret_key testEnv = .ok (stripBytes testKeyBytes)) :=
  ⟨⟨rfl, (C6_master_key_load (Env.mk none)).1 rfl⟩,
   ⟨rfl, by decide,
    (C6_master_key_load (Env.mk (some [97, 98, 99]))).2.1 _ rfl (by decide)⟩,
   ⟨rfl, by decide, (C6_master_key_load testEnv).2.2 _ rfl (by decide)⟩⟩

/-- Environment whose `secret.key` file has been removed. -/
def envNoKey : Env := ⟨none⟩

/-- Concrete database with a stored encrypted draft for user 1. -/
def stateWithDraft : AppState :=
  ⟨[testUser], [], [⟨1, 1, fernetEncryptText testKeyBytes "\x7b\x7d"⟩]⟩

set_option maxRecDepth 4096 in
/-- C9 (code bug): when decryption (or encryption) of a draft fails, the
500 response body embeds the RAW exception text `str(e)` verbatim — here
the full multi-line `FileNotFoundError` message, remediation instructions
included — contradicting the spec's requirement of a user-safe message with
no raw exception text (spec section 7 itself flags this as a defect of the
source). -/
theorem C9_error_leaks_exception_text :
    get_draft envNoKey 1 stateWithDraft =
      (500, Json.obj [("error",
        Json.str ("Decryption failed: " ++ secretKeyMissingMsg))]) ∧
    (submit_draft envNoKey 1 (Json.obj []) stateWithDraft).1 =
      (500, Json.obj [("error",
        Json.str ("Encryption failed: " ++ secretKeyMissingMsg))]) ∧
    secretKeyMissingMsg ≠ "" := by
  decide

/-- After either submissions upsert, the row `filter_by(user_id).first()`
reads carries exactly the status just written. -/
theorem upsertSubmission_subStatus (uid : Nat) (stat : String) (p : Json)
    (now : Nat) (subs : List SubmissionRec) :
    subStatus uid (upsertSubmission uid stat p now subs) = some stat := by
  unfold subStatus upsertSubmission
  cases hf : subs.find? (fun s => s.user_id == uid) with
  | some s =>
    rw [find?_map_pres _ _ (fun x => by
      by_cases hx : x.id == s.id <;> simp [hx]) subs, hf]
    simp
  | none =>
    rw [find?_append_none _ hf (by simp)]
    simp

/-- The invariant "at most one `submissions` row per user id". -/
def atMostOneSub (subs : List SubmissionRec) : Prop :=
  ∀ uid, subs.countP (fun s => s.user_id == uid) ≤ 1

/-- The submissions upsert preserves the at-most-one-row-per-user
invariant. -/
theorem upsertSubmission_atMostOne (uid : Nat) (stat : String) (p : Json)
    (now : Nat) (subs : List SubmissionRec) (h : atMostOneSub subs) :
    atMostOneSub (upsertSubmission uid stat p now subs) := by
  intro uid2
  unfold upsertSubmission
  cases hf : subs.find? (fun s => s.user_id == uid) with
  | some s =>
    rw [countP_map_pres _ _ (fun x => by
      by_cases hx : x.id == s.id <;> simp [hx]) subs]
    exact h uid2
  | none =>
    rw [List.countP_append]
    by_cases he : uid2 = uid
    · subst he
      have h0 : subs.countP (fun s => s.user_id == uid2) = 0 :=
        List.countP_eq_zero.mpr (fun a ha => (List.find?_eq_none.mp hf) a ha)
      rw [h0]
      simp [List.countP_cons, List.countP_nil]
    · have hb : (uid == uid2) = false := by
        simp only [beq_eq_false_iff_ne]
        exact fun hq => he hq.symm
      have h1 := h uid2
      have h2 : List.countP (fun s => s.user_id == uid2)
          [(⟨nextSubId subs, uid, stat, p, now, now⟩ : SubmissionRec)] = 0 := by
        simp [List.countP, List.countP.go, hb]
      omega

/-- C8 (counterexample): `submit_final` then `autosync` for the same user
takes the submission's status from `"final"` back to `"draft"` — the
claimed draft-to-final-only transition discipline is violated by a
reachable two-request sequence. -/
theorem C8_final_to_draft_counterexample :
    subStatus 1 (submit_final 1 (Json.obj []) 0 []).2 = some "final" ∧
    subStatus 1 (autosync 1 (Json.obj [])
        1 (submit_final 1 (Json.obj []) 0 []).2).2 = some "draft" := by
  decide

/-- C8 (amended): the status of a user's submission row is decided by the
LAST operation alone: `submit_final` always leaves it `"final"` and
`autosync` always leaves it `"draft"` — in particular `submit_final` never
reverts a final row, but `autosync` after a `submit_final` takes `"final"`
back to `"draft"`, so the transition does reverse. -/
theorem C8_amended_last_op_decides_status (subs : List SubmissionRec)
    (uid : Nat) (p : Json) (now : Nat) :
    subStatus uid (submit_final uid p now subs).2 = some "final" ∧
    subStatus uid (autosync uid p now subs).2 = some "draft" :=
  ⟨upsertSubmission_subStatus uid "final" p now subs,
   upsertSubmission_subStatus uid "draft" p now subs⟩

/-- C10 (confirmed): any sequence of `autosync`/`submit_final` requests
preserves "at most one `submissions` row per user", and `get_submission`'s
most-recent-by-`updated_at` lookup then necessarily reads that unique
row. -/
theorem C10_at_most_one_submission (subs : List SubmissionRec)
    (ops : List SubOp) (h : atMostOneSub subs) :
    atMostOneSub (runSubOps subs ops) ∧
    ∀ uid r, r ∈ runSubOps subs ops → r.user_id = uid →
      get_submission_row uid (runSubOps subs ops) = some r := by
  have hrun : ∀ (l : List SubmissionRec), atMostOneSub l →
      atMostOneSub (runSubOps l ops) := by
    induction ops with
    | nil => exact fun l hl => hl
    | cons op rest ih =>
      intro l hl
      cases op with
      | autosyncOp uid p now =>
        exact ih _ (upsertSubmission_atMostOne uid "draft" p now l hl)
      | submitFinalOp uid p now =>
        exact ih _ (upsertSubmission_atMostOne uid "final" p now l hl)
  refine ⟨hrun subs h, ?_⟩
  intro uid r hmem huid
  have hrp : (fun s => s.user_id == uid) r = true := by simp [huid]
  have hmemf : r ∈ (runSubOps subs ops).filter (fun s => s.user_id == uid) :=
    List.mem_filter.mpr ⟨hmem, hrp⟩
  have hlen : ((runSubOps subs ops).filter
      (fun s => s.user_id == uid)).length ≤ 1 := by
    rw [← List.countP_eq_length_filter]
    exact hrun subs h uid
  have hpos : 0 < ((runSubOps subs ops).filter
      (fun s => s.user_id == uid)).length := List.length_pos_of_mem hmemf
  have hlen1 : ((runSubOps subs ops).filter
      (fun s => s.user_id == uid)).length = 1 := by omega
  obtain ⟨a, ha⟩ := List.length_eq_one.mp hlen1
  have hra : r = a := by
    rw [ha] at hmemf
    simpa using hmemf
  unfold get_submission_row
  rw [ha, hra]
  rfl

/-- Witness for C10: two concrete requests starting from the empty table. -/
theorem C10_at_most_one_submission_witness :
    atMostOneSub [] ∧
    (atMostOneSub (runSubOps []
        [SubOp.autosyncOp 1 Json.null 0, SubOp.submitFinalOp 1 (Json.obj []) 1]) ∧
    ∀ uid r, r ∈ runSubOps []
        [SubOp.autosyncOp 1 Json.null 0, SubOp.submitFinalOp 1 (Json.obj []) 1] →
      r.user_id = uid →
      get_submission_row uid (runSubOps []
        [SubOp.autosyncOp 1 Json.null 0,
         SubOp.submitFinalOp 1 (Json.obj []) 1]) = some r) :=
  ⟨fun uid => by simp,
   C10_at_most_one_submission []
     [SubOp.autosyncOp 1 Json.null 0, SubOp.submitFinalOp 1 (Json.obj []) 1]
     (fun uid => by simp)⟩
